import Mathlib

/-!
Verification of the in-browser slide-editing and export engine of the
nbp-slides-web repository, as a shallow embedding in Lean 4.

The embedding follows the TypeScript source:
  - the data model comes from src/app/page.tsx (TextBlock, ImageBlock,
    GeneratedSlide);
  - the export pipeline comes from src/lib/export-utils.ts
    (renderSlideToCanvas, exportSlidesAsPDF, exportSlidesAsPPTX,
    downloadAllSlidesAsPNG and their font-size tables);
  - the editor state machine (history, selection, drag, resize, batch
    style updates) comes from src/components/steps/Step4Present.tsx.

JavaScript numbers are modelled as rationals, JavaScript strings as Lean
strings, optional fields as Option, and JavaScript truthiness of strings
and numbers is modelled explicitly (empty string and zero are falsy).
Canvas, jsPDF and pptxgenjs side effects are modelled as lists of draw
commands; image loading and fetching are modelled by an environment
mapping a URL to the natural dimensions of the image it serves, with
none meaning the load fails.
-/

namespace NBP

/-- JavaScript truthiness of an optional string: undefined and the empty
string are falsy. Models expressions such as slide.cleanPath used as a
condition. -/
def truthyOpt (o : Option String) : Bool :=
  match o with
  | some s => s ≠ ""
  | none => false

/-- JavaScript a or-else b for an optional string a and a string default,
as in slide.enlarged or slide.path. -/
def strOr (o : Option String) (d : String) : String :=
  match o with
  | some s => if s = "" then d else s
  | none => d

/-- JavaScript a or-else b for two plain strings, as in
block.color or-else a default color: the empty string is falsy. -/
def strOrS (s d : String) : String :=
  if s = "" then d else s

/-- JavaScript a or-else b for an optional number, as in
block.customFontSize or-else a default: undefined and zero are falsy. -/
def numOr (o : Option ℚ) (d : ℚ) : ℚ :=
  match o with
  | some x => if x = 0 then d else x
  | none => d

/-- JavaScript truthiness of an optional list, as in
slide.textBlocks and slide.textBlocks.length greater than zero. -/
def truthyList (o : Option (List α)) : Bool :=
  match o with
  | some l => !l.isEmpty
  | none => false

/-- Character-list worker of splitLines: split at every occurrence of the
separator character, keeping empty segments, like the JavaScript
String.prototype.split with a one-character separator. -/
def splitCharGo (c : Char) : List Char → List Char → List (List Char)
  | acc, [] => [acc.reverse]
  | acc, x :: xs =>
    if x = c then acc.reverse :: splitCharGo c [] xs
    else splitCharGo c (x :: acc) xs

/-- Model of the JavaScript expression content.split with the one-character
separator backslash-n, used by all three serializers to honor explicit
line breaks. Always returns at least one (possibly empty) line. -/
def splitLines (s : String) : List String :=
  (splitCharGo (Char.ofNat 10) [] s.data).map String.mk

/-- Text block of a slide, from the TextBlock interface in src/app/page.tsx.
Field x_percent and y_percent give the center of the block in percent of the
slide size; customFontSize and customColor are user overrides. -/
structure TextBlock where
  content : String
  x_percent : ℚ
  y_percent : ℚ
  width_percent : ℚ
  size : String
  align : String
  color : String
  customFontSize : Option ℚ := none
  customColor : Option String := none
deriving DecidableEq, Repr

/-- User-added image block, from the ImageBlock interface in
src/app/page.tsx. -/
structure ImageBlock where
  id : String
  src : String
  x_percent : ℚ
  y_percent : ℚ
  width_percent : ℚ
  aspectRatio : ℚ
deriving DecidableEq, Repr

/-- One slide of the deck, from the GeneratedSlide interface in
src/app/page.tsx. -/
structure GeneratedSlide where
  number : Nat
  path : String
  enlarged : Option String := none
  cleanPath : Option String := none
  textBlocks : Option (List TextBlock) := none
  imageBlocks : Option (List ImageBlock) := none
deriving DecidableEq, Repr

/-- A deck is the ordered list of generated slides. -/
abbrev Deck := List GeneratedSlide

/-- Placeholder slide used as the default of list lookups. -/
def emptySlide : GeneratedSlide :=
  { number := 0, path := "" }

/-- Placeholder text block used as the default of list lookups. -/
def dummyTextBlock : TextBlock :=
  { content := "", x_percent := 0, y_percent := 0, width_percent := 0,
    size := "", align := "", color := "" }

/-- Placeholder image block used as the default of list lookups. -/
def dummyImageBlock : ImageBlock :=
  { id := "", src := "", x_percent := 0, y_percent := 0,
    width_percent := 0, aspectRatio := 1 }

/-! ## Font-size tables (src/lib/export-utils.ts and Step4Present.tsx) -/

/-- Editor-canvas font size per size class, from getFontSizePx in
Step4Present.tsx. -/
def getFontSizePx (size : String) : ℚ :=
  if size = "large" then 48
  else if size = "medium" then 32
  else if size = "small" then 24
  else if size = "tiny" then 16
  else 24

/-- Raster-export font size per size class, from getFontSizeInPx in
export-utils.ts. -/
def getFontSizeInPx (size : String) : ℚ :=
  if size = "large" then 77
  else if size = "medium" then 48
  else if size = "small" then 35
  else if size = "tiny" then 23
  else 38

/-- Point size per size class for PDF and PPTX, from getFontSizeInPt in
export-utils.ts. -/
def getFontSizeInPt (size : String) : ℚ :=
  if size = "large" then 58
  else if size = "medium" then 36
  else if size = "small" then 26
  else if size = "tiny" then 17
  else 29

/-- Effective font size the PDF serializer passes to doc.setFontSize:
exportSlidesAsPDF scales the point table down by 0.35. -/
def pdfFontSize (size : String) : ℚ :=
  getFontSizeInPt size * 0.35

/-! ## Editor resolution of style overrides (DraggableTextBlock) -/

/-- Font size the editor canvas renders a block with, from line 77 of
Step4Present.tsx: block.customFontSize or-else getFontSizePx block.size. -/
def editorFontSize (b : TextBlock) : ℚ :=
  numOr b.customFontSize (getFontSizePx b.size)

/-- Color the editor canvas renders a block with, from line 78 of
Step4Present.tsx: block.customColor or-else block.color or-else a gray. -/
def editorColor (b : TextBlock) : String :=
  strOr b.customColor (strOrS b.color "#333333")

/-- Displayed background of a slide, from getDisplayUrl in
Step4Present.tsx: the clean background if preferred and present, else the
enlarged image, else the original path. -/
def getDisplayUrl (slide : GeneratedSlide) (preferClean : Bool) : String :=
  if preferClean && truthyOpt slide.cleanPath then slide.cleanPath.getD ""
  else strOr slide.enlarged slide.path

/-! ## Raster render pipeline (renderSlideToCanvas) -/

/-- Best image URL of a slide for export, from the expression
slide.cleanPath or-else slide.enlarged or-else slide.path used by every
serializer in export-utils.ts. -/
def bestImageUrl (slide : GeneratedSlide) : String :=
  strOr slide.cleanPath (strOr slide.enlarged slide.path)

/-- One canvas drawing command issued by renderSlideToCanvas. The fillText
command records the font parameters the context was configured with when
the text was drawn. -/
inductive DrawCmd where
  | fillRect (color : String) (x y w h : ℚ)
  | drawImage (url : String) (x y w h : ℚ)
  | fillText (text : String) (x y : ℚ) (fontSize : ℚ)
      (fontWeight : String) (family : String) (color : String) (align : String)
deriving DecidableEq, Repr

/-- True for text drawing commands. -/
def DrawCmd.isFillText : DrawCmd → Bool
  | .fillText _ _ _ _ _ _ _ _ => true
  | _ => false

/-- Horizontal position of a text drawing command (0 otherwise). -/
def DrawCmd.posX : DrawCmd → ℚ
  | .fillText _ x _ _ _ _ _ _ => x
  | _ => 0

/-- Vertical position of a text drawing command (0 otherwise). -/
def DrawCmd.posY : DrawCmd → ℚ
  | .fillText _ _ y _ _ _ _ _ => y
  | _ => 0

/-- Font size of a text drawing command (0 otherwise). -/
def DrawCmd.textFontSize : DrawCmd → ℚ
  | .fillText _ _ _ s _ _ _ _ => s
  | _ => 0

/-- Fill color of a text drawing command. -/
def DrawCmd.textColor : DrawCmd → String
  | .fillText _ _ _ _ _ _ c _ => c
  | _ => ""

/-- Canvas reference width, SLIDE_WIDTH in export-utils.ts. -/
def SLIDE_WIDTH : ℚ := 1920

/-- Canvas reference height, SLIDE_HEIGHT in export-utils.ts. -/
def SLIDE_HEIGHT : ℚ := 1080

/-- Font family stack set on the canvas context in renderSlideToCanvas. -/
def canvasFontFamily : String :=
  "Inter, SF Pro Display, -apple-system, sans-serif"

/-- Drawing commands for one text block of the raster export: the body of
the for-loop over slide.textBlocks in renderSlideToCanvas (lines 86 to 108
of export-utils.ts). The content is split on explicit newlines and each
line is drawn separately, vertically centered around the block center. -/
def renderTextBlockPx (block : TextBlock) : List DrawCmd :=
  let fontSize := getFontSizeInPx block.size
  let fontWeight := if block.size = "large" then "600" else "400"
  let color := strOrS block.color "#333333"
  let align := strOrS block.align "center"
  let textX := block.x_percent / 100 * SLIDE_WIDTH
  let textY := block.y_percent / 100 * SLIDE_HEIGHT
  let lines := splitLines block.content
  let lineHeight := fontSize * 1.3
  let totalHeight := (lines.length : ℚ) * lineHeight
  let startY := textY - totalHeight / 2 + lineHeight / 2
  lines.enum.map (fun p =>
    DrawCmd.fillText p.2 textX (startY + (p.1 : ℚ) * lineHeight)
      fontSize fontWeight canvasFontFamily color align)

/-- Background commands of the raster render: fill the canvas black, then
draw the background image scaled to fit and centered (lines 76 to 82 of
export-utils.ts). wh holds the natural width and height of the image. -/
def backgroundCmds (imageUrl : String) (wh : ℚ × ℚ) : List DrawCmd :=
  let scale := min (SLIDE_WIDTH / wh.1) (SLIDE_HEIGHT / wh.2)
  let x := (SLIDE_WIDTH - wh.1 * scale) / 2
  let y := (SLIDE_HEIGHT - wh.2 * scale) / 2
  [DrawCmd.fillRect "#000000" 0 0 SLIDE_WIDTH SLIDE_HEIGHT,
   DrawCmd.drawImage imageUrl x y (wh.1 * scale) (wh.2 * scale)]

/-- Raster render of a slide, from renderSlideToCanvas in export-utils.ts.
The environment env maps a URL to the natural dimensions of the image it
serves; none models a failing image load, which the source surfaces as a
rejected promise. Text blocks are drawn only when the slide has a truthy
cleanPath and a nonempty textBlocks list. -/
def renderSlideToCanvas (env : String → Option (ℚ × ℚ))
    (slide : GeneratedSlide) : Except String (List DrawCmd) :=
  let imageUrl := bestImageUrl slide
  match env imageUrl with
  | none => .error "image load failed"
  | some wh =>
    let texts :=
      if truthyOpt slide.cleanPath && truthyList slide.textBlocks then
        ((slide.textBlocks.getD []).map renderTextBlockPx).flatten
      else []
    .ok (backgroundCmds imageUrl wh ++ texts)

/-- PNG export of a single slide, from exportSlideAsPNG in
export-utils.ts: it renders the slide to an offscreen canvas and encodes
the canvas; the encoded blob is modelled by the draw-command list. -/
def exportSlideAsPNG (env : String → Option (ℚ × ℚ))
    (slide : GeneratedSlide) : Except String (List DrawCmd) :=
  renderSlideToCanvas env slide

/-! ## PDF serializer (exportSlidesAsPDF) -/

/-- One text run placed on a PDF page by doc.text. -/
structure PdfText where
  text : String
  x : ℚ
  y : ℚ
  fontSize : ℚ
  color : String
  align : String
deriving DecidableEq, Repr

/-- One page of the exported PDF: a full-page background image and the
text runs drawn over it. The image data is modelled by the URL it was
fetched from. -/
structure PdfPage where
  image : String
  texts : List PdfText
deriving DecidableEq, Repr

/-- PDF page width in millimeters, from the jsPDF format in
exportSlidesAsPDF. -/
def pdfPageWidth : ℚ := 297

/-- PDF page height in millimeters, from the jsPDF format in
exportSlidesAsPDF. -/
def pdfPageHeight : ℚ := 167

/-- Text runs for one text block of the PDF export: the body of the
for-loop over slide.textBlocks in exportSlidesAsPDF (lines 160 to 182 of
export-utils.ts). The font size is the point table scaled by 0.35. -/
def renderTextBlockPdf (block : TextBlock) : List PdfText :=
  let fontSize := pdfFontSize block.size
  let color := strOrS block.color "#333333"
  let textX := block.x_percent / 100 * pdfPageWidth
  let textY := block.y_percent / 100 * pdfPageHeight
  let align := strOrS block.align "center"
  let lines := splitLines block.content
  let lineHeight := fontSize * 0.5
  let totalHeight := (lines.length : ℚ) * lineHeight
  let startY := textY - totalHeight / 2 + lineHeight / 2
  lines.enum.map (fun p =>
    { text := p.2, x := textX, y := startY + (p.1 : ℚ) * lineHeight,
      fontSize := fontSize, color := color, align := align })

/-- One iteration of the slide loop of exportSlidesAsPDF: fetch the
background image (imageUrlToBase64, which rejects when the URL is
unreachable), add it full page, then add the text runs when the slide has
a truthy cleanPath and a nonempty textBlocks list. -/
def pdfPage (env : String → Option (ℚ × ℚ))
    (slide : GeneratedSlide) : Except String PdfPage :=
  let imageUrl := bestImageUrl slide
  match env imageUrl with
  | none => .error "image fetch failed"
  | some _ =>
    let texts :=
      if truthyOpt slide.cleanPath && truthyList slide.textBlocks then
        ((slide.textBlocks.getD []).map renderTextBlockPdf).flatten
      else []
    .ok { image := imageUrl, texts := texts }

/-- PDF export of the whole deck, from exportSlidesAsPDF in
export-utils.ts: the pages are produced sequentially and the first failing
image fetch rejects the whole export, so no blob is produced. -/
def exportSlidesAsPDF (env : String → Option (ℚ × ℚ)) :
    List GeneratedSlide → Except String (List PdfPage)
  | [] => .ok []
  | slide :: rest => do
    let page ← pdfPage env slide
    let pages ← exportSlidesAsPDF env rest
    .ok (page :: pages)

/-! ## PPTX serializer (exportSlidesAsPPTX) -/

/-- One editable text box placed on a PPTX slide by pptSlide.addText.
Lengths are in inches. -/
structure PptxText where
  text : String
  x : ℚ
  y : ℚ
  w : ℚ
  h : ℚ
  fontSize : ℚ
  fontFace : String
  color : String
  bold : Bool
  align : String
  valign : String
deriving DecidableEq, Repr

/-- One slide of the exported PPTX: full-slide background image plus
editable text boxes. -/
structure PptxSlide where
  image : String
  texts : List PptxText
deriving DecidableEq, Repr

/-- Text box for one text block of the PPTX export: the body of the
for-loop over slide.textBlocks in exportSlidesAsPPTX (lines 218 to 249 of
export-utils.ts). Percent-of-center positions are converted to top-left
inches on a 10 by 5.625 inch slide and clamped to be non-negative. The
source replaces the first hash of the color; all hex colors contain at
most one, so String.replace is a faithful model. -/
def renderTextBlockPptx (block : TextBlock) : PptxText :=
  let fontSize := getFontSizeInPt block.size
  let fontBold := block.size = "large"
  let slideWidthInches : ℚ := 10
  let slideHeightInches : ℚ := 5.625
  let boxWidth := block.width_percent / 100 * slideWidthInches
  let lines := (splitLines block.content).length
  let boxHeight := fontSize / 72 * 1.5 * (lines : ℚ)
  let x := block.x_percent / 100 * slideWidthInches - boxWidth / 2
  let y := block.y_percent / 100 * slideHeightInches - boxHeight / 2
  { text := block.content, x := max 0 x, y := max 0 y,
    w := boxWidth, h := boxHeight, fontSize := fontSize,
    fontFace := "Arial",
    color := strOrS (block.color.replace "#" "") "333333",
    bold := fontBold, align := strOrS block.align "center",
    valign := "middle" }

/-- One iteration of the slide loop of exportSlidesAsPPTX: fetch the
background, add it, then add one text box per block when the slide has a
truthy cleanPath and a nonempty textBlocks list. -/
def pptxSlide (env : String → Option (ℚ × ℚ))
    (slide : GeneratedSlide) : Except String PptxSlide :=
  let imageUrl := bestImageUrl slide
  match env imageUrl with
  | none => .error "image fetch failed"
  | some _ =>
    let texts :=
      if truthyOpt slide.cleanPath && truthyList slide.textBlocks then
        (slide.textBlocks.getD []).map renderTextBlockPptx
      else []
    .ok { image := imageUrl, texts := texts }

/-- PPTX export of the whole deck, from exportSlidesAsPPTX in
export-utils.ts: sequential, aborted by the first failing fetch. -/
def exportSlidesAsPPTX (env : String → Option (ℚ × ℚ)) :
    List GeneratedSlide → Except String (List PptxSlide)
  | [] => .ok []
  | slide :: rest => do
    let s ← pptxSlide env slide
    let rest ← exportSlidesAsPPTX env rest
    .ok (s :: rest)

/-! ## Download drivers (export-utils.ts and Step4Present.tsx) -/

/-- Single error message the downloadAllSlides handler in Step4Present.tsx
shows in its catch branch (one alert per failed export invocation). -/
def downloadFailedAlert : String := "下载失败，请重试"

/-- Loop of downloadAllSlidesAsPNG in export-utils.ts: each slide is
rendered and immediately delivered as its own file named slide_N.png; the
first slide that fails to render throws, aborting the loop after the
earlier files have already been handed to the user. Returns the delivered
files and the error of the aborting slide, if any. -/
def downloadAllSlidesAsPNGRun (env : String → Option (ℚ × ℚ)) :
    List GeneratedSlide → List (String × List DrawCmd) × Option String
  | [] => ([], none)
  | slide :: rest =>
    match exportSlideAsPNG env slide with
    | .error e => ([], some e)
    | .ok cmds =>
      let r := downloadAllSlidesAsPNGRun env rest
      (("slide_" ++ toString slide.number ++ ".png", cmds) :: r.1, r.2)

/-- The png branch of downloadAllSlides in Step4Present.tsx: run the PNG
loop; an escaping error is caught and surfaced as the single user-facing
alert. Returns the delivered files and the alert, if shown. -/
def downloadAllSlidesPNG (env : String → Option (ℚ × ℚ))
    (slides : List GeneratedSlide) :
    List (String × List DrawCmd) × Option String :=
  let r := downloadAllSlidesAsPNGRun env slides
  (r.1, r.2.map (fun _ => downloadFailedAlert))

/-- The pdf branch of downloadAllSlides combined with downloadSlidesAsPDF:
on success exactly one file named presentation.pdf is delivered; on
failure nothing is delivered and the single alert is shown. -/
def downloadAllSlidesPDF (env : String → Option (ℚ × ℚ))
    (slides : List GeneratedSlide) :
    Option (String × List PdfPage) × Option String :=
  match exportSlidesAsPDF env slides with
  | .ok pages => (some ("presentation.pdf", pages), none)
  | .error _ => (none, some downloadFailedAlert)

/-- The pptx branch of downloadAllSlides combined with
downloadSlidesAsPPTX: one presentation.pptx on success, nothing plus the
single alert on failure. -/
def downloadAllSlidesPPTX (env : String → Option (ℚ × ℚ))
    (slides : List GeneratedSlide) :
    Option (String × List PptxSlide) × Option String :=
  match exportSlidesAsPPTX env slides with
  | .ok ss => (some ("presentation.pptx", ss), none)
  | .error _ => (none, some downloadFailedAlert)

/-! ## Editor state machine (Step4Present.tsx)

The component state relevant to the claims: the live deck, the history
ring with its cursor, the two selection sets and the current slide index.
Transient per-block flags (isDragging, isResizing, isEditing) only gate
which handlers run and are passed explicitly to the handler models. -/

/-- Functional update of the element at an index, modelling the
copy-then-assign pattern newList[i] = f(newList[i]) used throughout
Step4Present.tsx; out-of-range indices leave the list unchanged, matching
the guards (or the unreachable unguarded cases) of the source. -/
def modifyAt : Nat → (α → α) → List α → List α
  | _, _, [] => []
  | 0, f, a :: as => f a :: as
  | i + 1, f, a :: as => a :: modifyAt i f as

/-- Index-aware filter, modelling list.filter((item, idx) => p idx). -/
def filterIdxAux (p : Nat → Bool) : Nat → List α → List α
  | _, [] => []
  | i, a :: as =>
    if p i then a :: filterIdxAux p (i + 1) as
    else filterIdxAux p (i + 1) as

/-- Filter a list by the index of each element. -/
def filterIdx (p : Nat → Bool) (l : List α) : List α :=
  filterIdxAux p 0 l

/-- JavaScript array.slice(-n): the last n elements (the whole array when
it is shorter). -/
def sliceLast (n : Nat) (l : List α) : List α :=
  l.drop (l.length - n)

/-- Editor component state of Step4Present, restricted to the fields the
claims are about: localSlides, history, historyIndex,
selectedBlockIndices, selectedImageIndices and currentSlideIndex. -/
structure EditorState where
  localSlides : Deck
  history : List Deck
  historyIndex : Nat
  selectedBlockIndices : List Nat
  selectedImageIndices : List Nat
  currentSlideIndex : Nat
deriving DecidableEq, Repr

/-- Initial component state: history starts as the one-element list
holding the initial deck with the cursor at 0 (lines 403 to 409 of
Step4Present.tsx). -/
def initEditor (deck : Deck) : EditorState :=
  { localSlides := deck, history := [deck], historyIndex := 0,
    selectedBlockIndices := [], selectedImageIndices := [],
    currentSlideIndex := 0 }

/-- saveToHistory of Step4Present.tsx: truncate the future after the
cursor, push the new snapshot, keep only the last 50 states, advance the
cursor capped at 49 and adopt the new deck as the live slides. -/
def saveToHistory (st : EditorState) (newSlides : Deck) : EditorState :=
  { st with
    history := sliceLast 50 (st.history.take (st.historyIndex + 1) ++ [newSlides]),
    historyIndex := min (st.historyIndex + 1) 49,
    localSlides := newSlides }

/-- undo of Step4Present.tsx: when the cursor is positive, move it back
one, load that snapshot into the live slides and clear both selections;
at cursor 0 the function does nothing at all. -/
def undo (st : EditorState) : EditorState :=
  if 0 < st.historyIndex then
    { st with
      historyIndex := st.historyIndex - 1,
      localSlides := st.history.getD (st.historyIndex - 1) [],
      selectedBlockIndices := [],
      selectedImageIndices := [] }
  else st

/-- Repeated undo. -/
def undoN : Nat → EditorState → EditorState
  | 0, st => st
  | k + 1, st => undo (undoN k st)

/-- Sequence of history commits applied in order. -/
def commitAll (st : EditorState) (ds : List Deck) : EditorState :=
  ds.foldl saveToHistory st

/-- updateTextBlockPosition of Step4Present.tsx: write the new center
position of one text block into the live slides only; the history is not
touched. -/
def updateTextBlockPosition (st : EditorState) (slideIndex blockIndex : Nat)
    (x y : ℚ) : EditorState :=
  { st with
    localSlides := modifyAt slideIndex (fun slide =>
      { slide with textBlocks := some (modifyAt blockIndex
          (fun b => { b with x_percent := x, y_percent := y })
          (slide.textBlocks.getD [])) }) st.localSlides }

/-- updateTextBlockContent of Step4Present.tsx. -/
def updateTextBlockContent (st : EditorState) (slideIndex blockIndex : Nat)
    (content : String) : EditorState :=
  { st with
    localSlides := modifyAt slideIndex (fun slide =>
      { slide with textBlocks := some (modifyAt blockIndex
          (fun b => { b with content := content })
          (slide.textBlocks.getD [])) }) st.localSlides }

/-- batchUpdateFontSize of Step4Present.tsx: for every selected index
whose block exists, set customFontSize; the update goes through
setLocalSlides only, without any history commit. -/
def batchUpdateFontSize (st : EditorState) (fontSize : ℚ) : EditorState :=
  { st with
    localSlides := modifyAt st.currentSlideIndex (fun slide =>
      { slide with textBlocks := some (st.selectedBlockIndices.foldl
          (fun tbs idx =>
            modifyAt idx (fun b => { b with customFontSize := some fontSize }) tbs)
          (slide.textBlocks.getD [])) }) st.localSlides }

/-- batchUpdateColor of Step4Present.tsx: same shape as
batchUpdateFontSize, setting customColor, again with no history commit. -/
def batchUpdateColor (st : EditorState) (color : String) : EditorState :=
  { st with
    localSlides := modifyAt st.currentSlideIndex (fun slide =>
      { slide with textBlocks := some (st.selectedBlockIndices.foldl
          (fun tbs idx =>
            modifyAt idx (fun b => { b with customColor := some color }) tbs)
          (slide.textBlocks.getD [])) }) st.localSlides }

/-- deleteSelectedBlocks of Step4Present.tsx: remove the selected text
blocks and image blocks of the current slide, commit the result to the
history, then clear both selections. -/
def deleteSelectedBlocks (st : EditorState) : EditorState :=
  if st.selectedBlockIndices.length = 0 && st.selectedImageIndices.length = 0 then st
  else
    let newSlides := modifyAt st.currentSlideIndex (fun slide =>
      let slide :=
        if 0 < st.selectedBlockIndices.length then
          { slide with textBlocks := some (filterIdx
              (fun idx => !(st.selectedBlockIndices.contains idx))
              (slide.textBlocks.getD [])) }
        else slide
      if 0 < st.selectedImageIndices.length then
        { slide with imageBlocks := some (filterIdx
            (fun idx => !(st.selectedImageIndices.contains idx))
            (slide.imageBlocks.getD [])) }
      else slide) st.localSlides
    let st := saveToHistory st newSlides
    { st with selectedBlockIndices := [], selectedImageIndices := [] }

/-- The default new text block created by addNewTextBlock in
Step4Present.tsx. -/
def defaultNewTextBlock : TextBlock :=
  { content := "双击编辑文字", x_percent := 50, y_percent := 50,
    width_percent := 40, size := "medium", align := "center",
    color := "#333333" }

/-- addNewTextBlock of Step4Present.tsx: append the default block to the
current slide (topmost z-order) and commit once to the history. -/
def addNewTextBlock (st : EditorState) : EditorState :=
  let newSlides := modifyAt st.currentSlideIndex (fun slide =>
    { slide with textBlocks := some (slide.textBlocks.getD [] ++ [defaultNewTextBlock]) })
    st.localSlides
  saveToHistory st newSlides

/-- handleBlockSelect of Step4Present.tsx: selecting a text block always
clears the image selection; a shift click toggles membership, a plain
click replaces the selection. -/
def handleBlockSelect (st : EditorState) (blockIndex : Nat) (shiftKey : Bool) :
    EditorState :=
  let st := { st with selectedImageIndices := [] }
  if shiftKey then
    { st with selectedBlockIndices :=
        if st.selectedBlockIndices.contains blockIndex then
          st.selectedBlockIndices.filter (fun i => i != blockIndex)
        else st.selectedBlockIndices ++ [blockIndex] }
  else { st with selectedBlockIndices := [blockIndex] }

/-- handleImageSelect of Step4Present.tsx: mirror image of
handleBlockSelect for image blocks. -/
def handleImageSelect (st : EditorState) (imageIndex : Nat) (shiftKey : Bool) :
    EditorState :=
  let st := { st with selectedBlockIndices := [] }
  if shiftKey then
    { st with selectedImageIndices :=
        if st.selectedImageIndices.contains imageIndex then
          st.selectedImageIndices.filter (fun i => i != imageIndex)
        else st.selectedImageIndices ++ [imageIndex] }
  else { st with selectedImageIndices := [imageIndex] }

/-- Drag start snapshot of DraggableTextBlock: pointer position and block
position at pointer-down. -/
structure DragStart where
  x : ℚ
  y : ℚ
  blockX : ℚ
  blockY : ℚ
deriving DecidableEq, Repr

/-- Drag start snapshot of ResizableImageBlock for moves. -/
structure ImageDragStart where
  x : ℚ
  y : ℚ
  imgX : ℚ
  imgY : ℚ
deriving DecidableEq, Repr

/-- Resize start snapshot of ResizableImageBlock. -/
structure ResizeStart where
  x : ℚ
  width : ℚ
deriving DecidableEq, Repr

/-- handleMouseMove of DraggableTextBlock (lines 94 to 105 of
Step4Present.tsx): convert the pointer delta to container-relative percent
units, clamp the new center into the 0 to 100 range on both axes and
write it through updateTextBlockPosition. Does nothing unless a drag is
in progress. -/
def handleTextMouseMove (st : EditorState) (isDragging : Bool)
    (ds : DragStart) (rectW rectH clientX clientY : ℚ)
    (slideIndex blockIndex : Nat) : EditorState :=
  if isDragging then
    let deltaX := (clientX - ds.x) / rectW * 100
    let deltaY := (clientY - ds.y) / rectH * 100
    let newX := max 0 (min 100 (ds.blockX + deltaX))
    let newY := max 0 (min 100 (ds.blockY + deltaY))
    updateTextBlockPosition st slideIndex blockIndex newX newY
  else st

/-- handleMouseUp of DraggableTextBlock: the source only resets the
transient isDragging flag; it neither changes the slides nor commits
anything to the history. -/
def handleTextMouseUp (st : EditorState) : EditorState := st

/-- updateImagePosition of Step4Present.tsx: position update of one image
block of the current slide, live slides only, guarded by the existence of
the block. -/
def updateImagePosition (st : EditorState) (imageIndex : Nat) (x y : ℚ) :
    EditorState :=
  { st with
    localSlides := modifyAt st.currentSlideIndex (fun slide =>
      { slide with imageBlocks := some (modifyAt imageIndex
          (fun im => { im with x_percent := x, y_percent := y })
          (slide.imageBlocks.getD [])) }) st.localSlides }

/-- updateImageSize of Step4Present.tsx: width update of one image block
of the current slide, live slides only. -/
def updateImageSize (st : EditorState) (imageIndex : Nat) (width : ℚ) :
    EditorState :=
  { st with
    localSlides := modifyAt st.currentSlideIndex (fun slide =>
      { slide with imageBlocks := some (modifyAt imageIndex
          (fun im => { im with width_percent := width })
          (slide.imageBlocks.getD [])) }) st.localSlides }

/-- handleMouseMove of ResizableImageBlock (lines 320 to 337 of
Step4Present.tsx): when dragging, clamp the new center into 0 to 100 on
both axes; when resizing, the horizontal delta drives the width, clamped
into 5 to 100. -/
def handleImageMouseMove (st : EditorState) (isDragging isResizing : Bool)
    (ds : ImageDragStart) (rs : ResizeStart) (rectW rectH clientX clientY : ℚ)
    (imageIndex : Nat) : EditorState :=
  let st1 :=
    if isDragging then
      let deltaX := (clientX - ds.x) / rectW * 100
      let deltaY := (clientY - ds.y) / rectH * 100
      let newX := max 0 (min 100 (ds.imgX + deltaX))
      let newY := max 0 (min 100 (ds.imgY + deltaY))
      updateImagePosition st imageIndex newX newY
    else st
  if isResizing then
    let deltaX := (clientX - rs.x) / rectW * 100
    let newWidth := max 5 (min 100 (rs.width + deltaX))
    updateImageSize st1 imageIndex newWidth
  else st1

/-- Text block of the live slides at a slide and block index. -/
def textBlockAt (st : EditorState) (slideIndex blockIndex : Nat) : TextBlock :=
  ((st.localSlides.getD slideIndex emptySlide).textBlocks.getD []).getD
    blockIndex dummyTextBlock

/-- Image block of the current slide of the live slides at an index. -/
def imageBlockAt (st : EditorState) (imageIndex : Nat) : ImageBlock :=
  ((st.localSlides.getD st.currentSlideIndex emptySlide).imageBlocks.getD []).getD
    imageIndex dummyImageBlock

/-! ## Concrete fixtures for counterexamples and witnesses -/

/-- Image environment for the concrete examples: the named URLs resolve
with the given natural dimensions, every other URL fails to load. -/
def envA : String → Option (ℚ × ℚ) := fun url =>
  if url = "a.png" then some (1920, 1080)
  else if url = "a_4k.png" then some (3840, 2160)
  else if url = "a_clean.png" then some (1920, 1080)
  else if url = "s1.png" then some (1920, 1080)
  else if url = "s3.png" then some (1600, 900)
  else none

/-- Medium text block carrying both style overrides: a 99 px custom font
size and a custom red color. -/
def ovBlock : TextBlock :=
  { content := "Hello", x_percent := 50, y_percent := 50,
    width_percent := 40, size := "medium", align := "center",
    color := "#333333", customFontSize := some 99,
    customColor := some "#ff0000" }

/-- Slide with extracted text (truthy cleanPath) whose single block is
ovBlock. -/
def slideOverride : GeneratedSlide :=
  { number := 1, path := "a.png", enlarged := some "a_4k.png",
    cleanPath := some "a_clean.png", textBlocks := some [ovBlock] }

/-- Plain medium block without overrides. -/
def plainBlock : TextBlock :=
  { content := "One\nTwo", x_percent := 50, y_percent := 50,
    width_percent := 40, size := "medium", align := "center",
    color := "#112233" }

/-- Slide that has a text block but no clean background. -/
def slideNoClean : GeneratedSlide :=
  { number := 2, path := "a.png", textBlocks := some [plainBlock] }

/-- Large text block without overrides. -/
def largeBlock : TextBlock :=
  { content := "Title", x_percent := 50, y_percent := 20,
    width_percent := 60, size := "large", align := "center",
    color := "#000000" }

/-- Slide with extracted text whose single block is largeBlock. -/
def slideLarge : GeneratedSlide :=
  { number := 1, path := "a.png", cleanPath := some "a_clean.png",
    textBlocks := some [largeBlock] }

/-- Slide with all three of base, upscaled and clean image, the literal of
property P8 of the spec. -/
def slideP8 : GeneratedSlide :=
  { number := 1, path := "a.png", enlarged := some "a_4k.png",
    cleanPath := some "a_clean.png" }

/-- Three-slide deck whose middle slide has an unreachable background URL
(s2.png is not served by envA). -/
def slides3 : List GeneratedSlide :=
  [{ number := 1, path := "s1.png" },
   { number := 2, path := "s2.png" },
   { number := 3, path := "s3.png" }]

/-- Editable slide with no text blocks yet, the starting point of the
add-drag-delete scenario. -/
def slidePre : GeneratedSlide :=
  { number := 1, path := "a.png", cleanPath := some "a_clean.png",
    textBlocks := some [] }

/-- Three plain text blocks for the batch-edit examples. -/
def threeBlocks : List TextBlock :=
  [{ plainBlock with content := "b0" },
   { plainBlock with content := "b1" },
   { plainBlock with content := "b2" }]

/-- Slide holding the three blocks of threeBlocks plus a fourth,
unselected one. -/
def slideFour : GeneratedSlide :=
  { number := 1, path := "a.png", cleanPath := some "a_clean.png",
    textBlocks := some (threeBlocks ++ [{ plainBlock with content := "b3" }]) }

/-- Editor state with the first three blocks of slideFour selected. -/
def stThreeSelected : EditorState :=
  { initEditor [slideFour] with selectedBlockIndices := [0, 1, 2] }

/-- Image block fixture for the clamp witness. -/
def imgW : ImageBlock :=
  { id := "img1", src := "data:x", x_percent := 50, y_percent := 50,
    width_percent := 30, aspectRatio := 4 / 3 }

/-- Slide for the clamp witness: one text block and one image block. -/
def slideClamp : GeneratedSlide :=
  { number := 1, path := "a.png", cleanPath := some "a_clean.png",
    textBlocks := some [plainBlock], imageBlocks := some [imgW] }

/-- Editor state for the clamp witness. -/
def stClamp : EditorState :=
  initEditor [slideClamp]

/-- Deck fixture used as the initial deck of the history-depth witness. -/
def deck0 : Deck := [{ number := 0, path := "p0.png" }]

/-- Sixty distinct decks standing for sixty sequential edits. -/
def decks60 : List Deck :=
  (List.range 60).map (fun i => [{ number := i + 1, path := "p.png" }])

/-- Placeholder draw command used as the default of list lookups. -/
def dummyCmd : DrawCmd := DrawCmd.fillRect "" 0 0 0 0

/-- Draw commands of a raster render result, empty on failure. -/
def cmdsOf (r : Except String (List DrawCmd)) : List DrawCmd :=
  match r with
  | .ok cmds => cmds
  | .error _ => []

/-- Placeholder PDF page used as the default of list lookups. -/
def dummyPdfPage : PdfPage := { image := "", texts := [] }

/-- Placeholder PDF text run used as the default of list lookups. -/
def dummyPdfText : PdfText :=
  { text := "", x := 0, y := 0, fontSize := 0, color := "", align := "" }

/-- Pages of a PDF export result, empty on failure. -/
def pdfPagesOf (r : Except String (List PdfPage)) : List PdfPage :=
  match r with
  | .ok pages => pages
  | .error _ => []

/-- Structural invariant of the history state maintained by the component:
the cursor sits on the last snapshot, the ring holds at most 50 snapshots,
and the live slides equal the snapshot under the cursor. It holds in the
initial state and is preserved by every commit. -/
def HistoryInv (st : EditorState) : Prop :=
  st.historyIndex + 1 = st.history.length ∧
  st.history.length ≤ 50 ∧
  st.localSlides = st.history.getD st.historyIndex []

/-! ## Helper lemmas about the list combinators -/

theorem modifyAt_length (i : Nat) (f : α → α) (l : List α) :
    (modifyAt i f l).length = l.length := by
  induction l generalizing i with
  | nil => simp [modifyAt]
  | cons a as ih =>
    cases i with
    | zero => simp [modifyAt]
    | succ i => simp [modifyAt, ih]

theorem modifyAt_getD (i : Nat) (f : α → α) (l : List α) (j : Nat) (d : α) :
    (modifyAt i f l).getD j d =
      if j = i ∧ j < l.length then f (l.getD j d) else l.getD j d := by
  induction l generalizing i j with
  | nil => simp [modifyAt]
  | cons a as ih =>
    cases i with
    | zero =>
      cases j with
      | zero => simp [modifyAt, List.getD]
      | succ j => simp [modifyAt, List.getD]
    | succ i =>
      cases j with
      | zero => simp [modifyAt, List.getD]
      | succ j =>
        simp only [modifyAt, List.getD_cons_succ, ih, List.length_cons]
        by_cases h1 : j = i
        · by_cases h2 : j < as.length
          · rw [if_pos ⟨h1, h2⟩, if_pos ⟨by omega, by omega⟩]
          · rw [if_neg (by omega), if_neg (by omega)]
        · rw [if_neg (by omega), if_neg (by omega)]

theorem foldl_modifyAt_length (f : α → α) (sel : List Nat) (l : List α) :
    (sel.foldl (fun acc j => modifyAt j f acc) l).length = l.length := by
  induction sel generalizing l with
  | nil => rfl
  | cons j rest ih => simp [List.foldl_cons, ih, modifyAt_length]

theorem foldl_modifyAt_getD (f : α → α) (hf : ∀ x, f (f x) = f x)
    (sel : List Nat) (l : List α) (i : Nat) (d : α) (hi : i < l.length) :
    (sel.foldl (fun acc j => modifyAt j f acc) l).getD i d =
      if i ∈ sel then f (l.getD i d) else l.getD i d := by
  induction sel generalizing l with
  | nil => simp
  | cons j rest ih =>
    simp only [List.foldl_cons]
    rw [ih (modifyAt j f l) (by simpa [modifyAt_length] using hi)]
    rw [modifyAt_getD]
    by_cases h1 : i ∈ rest
    · by_cases h2 : i = j
      · subst h2
        simp [h1, hi, hf]
      · simp [h1, h2]
    · by_cases h2 : i = j
      · subst h2
        simp [h1, hi]
      · simp [h1, h2]

theorem filterIdxAux_ne_append (l : List α) (k : Nat) (b : α) :
    filterIdxAux (fun i => i != k + l.length) k (l ++ [b]) = l := by
  induction l generalizing k with
  | nil => simp [filterIdxAux]
  | cons a as ih =>
    have hk : (k != k + (a :: as).length) = true := by
      simp [List.length_cons]
    simp only [List.cons_append, filterIdxAux, hk, if_pos]
    have heq : (fun i => i != k + (a :: as).length) =
        (fun i => i != (k + 1) + as.length) := by
      funext i
      congr 1
      simp only [List.length_cons]
      omega
    rw [heq]
    simp only [List.append_eq] at ih ⊢
    rw [ih (k + 1)]

theorem filterIdx_last (l : List α) (b : α) :
    filterIdx (fun i => i != l.length) (l ++ [b]) = l := by
  have := filterIdxAux_ne_append l 0 b
  simpa [filterIdx] using this

theorem modifyAt_append_length (l : List α) (b : α) (f : α → α) :
    modifyAt l.length f (l ++ [b]) = l ++ [f b] := by
  induction l with
  | nil => rfl
  | cons a as ih => simp [modifyAt, List.length_cons, ih]

theorem sliceLast_of_le (n : Nat) (l : List α) (h : l.length ≤ n) :
    sliceLast n l = l := by
  simp [sliceLast, Nat.sub_eq_zero_of_le h]

theorem sliceLast_length (n : Nat) (l : List α) :
    (sliceLast n l).length = min n l.length := by
  simp [sliceLast]
  omega

theorem sliceLast_absorb (n : Nat) (l m : List α) :
    sliceLast n (sliceLast n l ++ m) = sliceLast n (l ++ m) := by
  by_cases h : l.length ≤ n
  · rw [sliceLast_of_le n l h]
  · have h1 : l.length - n ≤ l.length := Nat.sub_le _ _
    simp only [sliceLast, List.length_append, List.length_drop]
    rw [← List.drop_append_of_le_length h1, List.drop_drop]
    congr 1
    omega

theorem sliceLast_append_singleton (l : List α) (b : α) (n : Nat) (hn : 0 < n) :
    sliceLast n (l ++ [b]) = l.drop (l.length + 1 - n) ++ [b] := by
  simp only [sliceLast, List.length_append, List.length_singleton]
  rw [List.drop_append_of_le_length (by omega)]

/-! ## History ring lemmas -/

theorem getD_last_append (l : List α) (a d : α) :
    (l ++ [a]).getD l.length d = a := by
  induction l with
  | nil => rfl
  | cons b l ih =>
    simp only [List.cons_append, List.length_cons, List.getD_cons_succ]
    exact ih

theorem historyInv_init (deck : Deck) : HistoryInv (initEditor deck) := by
  refine ⟨rfl, by simp [initEditor], rfl⟩

theorem saveToHistory_history (st : EditorState) (d : Deck)
    (h : HistoryInv st) :
    (saveToHistory st d).history = sliceLast 50 (st.history ++ [d]) := by
  have ht : st.history.take (st.historyIndex + 1) = st.history := by
    rw [h.1]
    exact List.take_length st.history
  simp [saveToHistory, ht]

theorem saveToHistory_inv (st : EditorState) (d : Deck)
    (h : HistoryInv st) : HistoryInv (saveToHistory st d) := by
  obtain ⟨h1, h2, h3⟩ := h
  have hist : (saveToHistory st d).history =
      st.history.drop (st.history.length + 1 - 50) ++ [d] := by
    rw [saveToHistory_history st d ⟨h1, h2, h3⟩,
      sliceLast_append_singleton _ _ _ (by norm_num)]
  have hidx : (saveToHistory st d).historyIndex =
      min (st.historyIndex + 1) 49 := rfl
  have hloc : (saveToHistory st d).localSlides = d := rfl
  refine ⟨?_, ?_, ?_⟩
  · rw [hist, hidx]
    simp only [List.length_append, List.length_drop, List.length_singleton]
    omega
  · rw [hist]
    simp only [List.length_append, List.length_drop, List.length_singleton]
    omega
  · rw [hist, hidx, hloc]
    have hm : min (st.historyIndex + 1) 49 =
        (st.history.drop (st.history.length + 1 - 50)).length := by
      rw [List.length_drop]
      omega
    rw [hm, getD_last_append]

theorem commitAll_spec : ∀ (ds : List Deck) (st : EditorState),
    HistoryInv st →
    HistoryInv (commitAll st ds) ∧
    (commitAll st ds).history = sliceLast 50 (st.history ++ ds) := by
  intro ds
  induction ds with
  | nil =>
    intro st h
    refine ⟨h, ?_⟩
    rw [List.append_nil, sliceLast_of_le _ _ h.2.1]
    rfl
  | cons d ds ih =>
    intro st h
    have hstep : commitAll st (d :: ds) = commitAll (saveToHistory st d) ds := rfl
    have hinv : HistoryInv (saveToHistory st d) := saveToHistory_inv st d h
    obtain ⟨hi, hh⟩ := ih (saveToHistory st d) hinv
    refine ⟨hstep ▸ hi, ?_⟩
    rw [hstep, hh, saveToHistory_history st d h, sliceLast_absorb,
      List.append_assoc]
    rfl

theorem undo_history (st : EditorState) : (undo st).history = st.history := by
  unfold undo
  split <;> rfl

theorem undoN_history (k : Nat) (st : EditorState) :
    (undoN k st).history = st.history := by
  induction k with
  | zero => rfl
  | succ k ih => rw [undoN, undo_history, ih]

theorem undo_fix (st : EditorState) (h : st.historyIndex = 0) :
    undo st = st := by
  unfold undo
  rw [if_neg (by omega)]

theorem undoN_spec (st : EditorState)
    (hloc : st.localSlides = st.history.getD st.historyIndex [])
    (k : Nat) (hk : k ≤ st.historyIndex) :
    (undoN k st).historyIndex = st.historyIndex - k ∧
    (undoN k st).localSlides = st.history.getD (st.historyIndex - k) [] := by
  induction k with
  | zero => exact ⟨rfl, by simpa using hloc⟩
  | succ k ih =>
    obtain ⟨ih1, ih2⟩ := ih (Nat.le_of_succ_le hk)
    have hpos : 0 < (undoN k st).historyIndex := by
      rw [ih1]
      omega
    have hu : undoN (k + 1) st =
        { undoN k st with
          historyIndex := (undoN k st).historyIndex - 1,
          localSlides := (undoN k st).history.getD
            ((undoN k st).historyIndex - 1) [],
          selectedBlockIndices := [],
          selectedImageIndices := [] } := by
      show undo (undoN k st) = _
      unfold undo
      rw [if_pos hpos]
    rw [hu]
    refine ⟨?_, ?_⟩
    · show (undoN k st).historyIndex - 1 = st.historyIndex - (k + 1)
      omega
    · show (undoN k st).history.getD ((undoN k st).historyIndex - 1) [] = _
      rw [undoN_history, ih1, Nat.sub_sub]

theorem undoN_index_le (st : EditorState) (k : Nat) :
    (undoN k st).historyIndex ≤ st.historyIndex := by
  induction k with
  | zero => exact Nat.le_refl _
  | succ k ih =>
    show (undo (undoN k st)).historyIndex ≤ _
    unfold undo
    split
    · simp only
      omega
    · exact ih

theorem undoN_localSlides_mem (st : EditorState)
    (hlen : st.historyIndex < st.history.length)
    (hloc : st.localSlides = st.history.getD st.historyIndex [])
    (k : Nat) : (undoN k st).localSlides ∈ st.history := by
  induction k with
  | zero =>
    rw [show undoN 0 st = st from rfl, hloc,
      List.getD_eq_getElem st.history [] hlen]
    exact List.getElem_mem hlen
  | succ k ih =>
    by_cases hpos : 0 < (undoN k st).historyIndex
    · have hu : (undoN (k + 1) st).localSlides =
          (undoN k st).history.getD ((undoN k st).historyIndex - 1) [] := by
        show (undo (undoN k st)).localSlides = _
        unfold undo
        rw [if_pos hpos]
      have hlt : (undoN k st).historyIndex - 1 < st.history.length := by
        have := undoN_index_le st k
        omega
      rw [hu, undoN_history, List.getD_eq_getElem st.history [] hlt]
      exact List.getElem_mem hlt
    · have hfix : undoN (k + 1) st = undoN k st := by
        show undo (undoN k st) = _
        unfold undo
        rw [if_neg hpos]
      rw [hfix]
      exact ih

/-! ## Claim C6: the four font-size tables -/

/-- C6 counterexample: the claim says the PDF export renders a large block
at 58 points, but the font size actually set on the jsPDF document for a
large block is 58 times 0.35, that is 20.3 points. -/
theorem C6_counterexample :
    ((((pdfPagesOf (exportSlidesAsPDF envA [slideLarge])).getD 0
        dummyPdfPage).texts.getD 0 dummyPdfText).fontSize = 203 / 10) ∧
    ¬ ((203 : ℚ) / 10 = 58) := by
  constructor
  · have h : (((pdfPagesOf (exportSlidesAsPDF envA [slideLarge])).getD 0
        dummyPdfPage).texts.getD 0 dummyPdfText).fontSize
        = pdfFontSize "large" := rfl
    rw [h]
    show (58 : ℚ) * 0.35 = 203 / 10
    norm_num
  · norm_num

/-- C6 amended: the editor canvas maps large, medium, small and tiny to
48, 32, 24 and 16 px, the raster export to 77, 48, 35 and 23 px, and the
PPTX export to 58, 36, 26 and 17 pt verbatim; the PDF export however uses
the point table scaled by 0.35, so 20.3, 12.6, 9.1 and 5.95 pt. The two
quantified conjuncts tie the tables to the serializers that use them. -/
theorem C6_size_tables :
    (getFontSizePx "large" = 48 ∧ getFontSizePx "medium" = 32 ∧
     getFontSizePx "small" = 24 ∧ getFontSizePx "tiny" = 16) ∧
    (getFontSizeInPx "large" = 77 ∧ getFontSizeInPx "medium" = 48 ∧
     getFontSizeInPx "small" = 35 ∧ getFontSizeInPx "tiny" = 23) ∧
    (getFontSizeInPt "large" = 58 ∧ getFontSizeInPt "medium" = 36 ∧
     getFontSizeInPt "small" = 26 ∧ getFontSizeInPt "tiny" = 17) ∧
    (∀ b : TextBlock, (renderTextBlockPptx b).fontSize = getFontSizeInPt b.size) ∧
    (∀ b : TextBlock, ∀ t ∈ renderTextBlockPdf b, t.fontSize = pdfFontSize b.size) ∧
    (pdfFontSize "large" = 203 / 10 ∧ pdfFontSize "medium" = 63 / 5 ∧
     pdfFontSize "small" = 91 / 10 ∧ pdfFontSize "tiny" = 119 / 20) := by
  have hpdf : pdfFontSize "large" = 203 / 10 ∧ pdfFontSize "medium" = 63 / 5 ∧
      pdfFontSize "small" = 91 / 10 ∧ pdfFontSize "tiny" = 119 / 20 := by
    refine ⟨?_, ?_, ?_, ?_⟩
    · show (58 : ℚ) * 0.35 = 203 / 10
      norm_num
    · show (36 : ℚ) * 0.35 = 63 / 5
      norm_num
    · show (26 : ℚ) * 0.35 = 91 / 10
      norm_num
    · show (17 : ℚ) * 0.35 = 119 / 20
      norm_num
  refine ⟨by decide, by decide, by decide, ?_, ?_, hpdf⟩
  · intro b
    rfl
  · intro b t ht
    simp only [renderTextBlockPdf, List.mem_map] at ht
    obtain ⟨p, _, rfl⟩ := ht
    rfl

/-- C6 witness: the amended table facts instantiated at a concrete medium
block and the first text run of its PDF rendering. -/
theorem C6_witness :
    (renderTextBlockPptx plainBlock).fontSize = getFontSizeInPt plainBlock.size ∧
    ((renderTextBlockPdf plainBlock).getD 0 dummyPdfText).fontSize
      = pdfFontSize plainBlock.size := by
  constructor
  · exact C6_size_tables.2.2.2.1 plainBlock
  · have hlen : 0 < (renderTextBlockPdf plainBlock).length := by decide
    refine C6_size_tables.2.2.2.2.1 plainBlock _ ?_
    rw [List.getD_eq_getElem _ _ hlen]
    exact List.getElem_mem hlen

/-! ## Claim C8: display priority in the editor -/

/-- C8: for a slide with a nonempty clean background and a nonempty
upscaled image, the editor shows the clean background when overlay-edit
mode is on and the upscaled image when it is off; without an upscaled
image the base image is shown. This is getDisplayUrl applied at the call
site with editMode as the preferClean argument. -/
theorem C8_display_priority (slide : GeneratedSlide) (c u : String)
    (hc : slide.cleanPath = some c) (hc2 : c ≠ "")
    (hu : slide.enlarged = some u) (hu2 : u ≠ "") :
    getDisplayUrl slide true = c ∧
    getDisplayUrl slide false = u ∧
    (∀ t : GeneratedSlide, t.enlarged = none → getDisplayUrl t false = t.path) := by
  refine ⟨?_, ?_, ?_⟩
  · simp [getDisplayUrl, truthyOpt, hc, hc2]
  · simp [getDisplayUrl, strOr, hu, hu2]
  · intro t ht
    simp [getDisplayUrl, strOr, ht]

/-- C8 witness: the spec literal, base a.png, upscaled a_4k.png and clean
a_clean.png; edit mode shows the clean image, otherwise the upscaled. -/
theorem C8_witness :
    getDisplayUrl slideP8 true = "a_clean.png" ∧
    getDisplayUrl slideP8 false = "a_4k.png" ∧
    (∀ t : GeneratedSlide, t.enlarged = none → getDisplayUrl t false = t.path) :=
  C8_display_priority slideP8 "a_clean.png" "a_4k.png" rfl (by decide) rfl (by decide)

/-! ## Claim C10: exports ignore image blocks -/

/-- C10: none of the three export serializers reads imageBlocks: replacing
the imageBlocks of a slide with anything (or nothing) leaves the raster
render, the PNG export, the PDF page and the PPTX slide unchanged, so
user-added image overlays are absent from every exported file. -/
theorem C10_exports_ignore_image_blocks (env : String → Option (ℚ × ℚ))
    (slide : GeneratedSlide) (ibs : Option (List ImageBlock)) :
    renderSlideToCanvas env { slide with imageBlocks := ibs } =
      renderSlideToCanvas env slide ∧
    exportSlideAsPNG env { slide with imageBlocks := ibs } =
      exportSlideAsPNG env slide ∧
    pdfPage env { slide with imageBlocks := ibs } = pdfPage env slide ∧
    pptxSlide env { slide with imageBlocks := ibs } = pptxSlide env slide := by
  cases slide
  exact ⟨rfl, rfl, rfl, rfl⟩

/-! ## Claim C1: style overrides across render targets -/

/-- C1 counterexample: a block with customFontSize 99 and customColor red
renders in the editor with those overrides, but the raster export draws it
at the medium default of 48 px in the base color; the override does not
supersede the default in all render targets. -/
theorem C1_counterexample :
    ovBlock.customFontSize = some 99 ∧
    ovBlock.customColor = some "#ff0000" ∧
    editorFontSize ovBlock = 99 ∧
    editorColor ovBlock = "#ff0000" ∧
    (cmdsOf (renderSlideToCanvas envA slideOverride)).length = 3 ∧
    (((cmdsOf (renderSlideToCanvas envA slideOverride)).getD 2
      dummyCmd).isFillText = true) ∧
    (((cmdsOf (renderSlideToCanvas envA slideOverride)).getD 2
      dummyCmd).textFontSize = 48) ∧
    (((cmdsOf (renderSlideToCanvas envA slideOverride)).getD 2
      dummyCmd).textColor = "#333333") ∧
    ¬ ((48 : ℚ) = 99) := by
  refine ⟨rfl, rfl, ?_, rfl, rfl, rfl, ?_, rfl, by norm_num⟩
  · show numOr (some 99) (getFontSizePx "medium") = 99
    norm_num [numOr]
  · show getFontSizeInPx "medium" = 48
    rfl

/-- C1 amended: a present (nonzero, nonempty) customFontSize or
customColor supersedes the default only in the editor canvas; the raster,
PDF and PPTX serializers are insensitive to both override fields and
always use the sizeClass default and the base color. -/
theorem C1_overrides_editor_only (b : TextBlock) (s : ℚ) (hs : s ≠ 0)
    (c : String) (hc : c ≠ "") :
    editorFontSize { b with customFontSize := some s, customColor := some c } = s ∧
    editorColor { b with customFontSize := some s, customColor := some c } = c ∧
    (∀ o oc, renderTextBlockPx { b with customFontSize := o, customColor := oc }
      = renderTextBlockPx b) ∧
    (∀ o oc, renderTextBlockPdf { b with customFontSize := o, customColor := oc }
      = renderTextBlockPdf b) ∧
    (∀ o oc, renderTextBlockPptx { b with customFontSize := o, customColor := oc }
      = renderTextBlockPptx b) := by
  refine ⟨?_, ?_, ?_, ?_, ?_⟩
  · simp [editorFontSize, numOr, hs]
  · simp [editorColor, strOr, hc]
  · intro o oc
    cases b
    rfl
  · intro o oc
    cases b
    rfl
  · intro o oc
    cases b
    rfl

/-- C1 witness: the amended statement instantiated at a plain medium block
with a 99 px and red override. -/
theorem C1_witness :
    editorFontSize { plainBlock with customFontSize := some 99, customColor := some "#ff0000" } = 99 ∧
    editorColor { plainBlock with customFontSize := some 99, customColor := some "#ff0000" } = "#ff0000" ∧
    (∀ o oc, renderTextBlockPx { plainBlock with customFontSize := o, customColor := oc }
      = renderTextBlockPx plainBlock) ∧
    (∀ o oc, renderTextBlockPdf { plainBlock with customFontSize := o, customColor := oc }
      = renderTextBlockPdf plainBlock) ∧
    (∀ o oc, renderTextBlockPptx { plainBlock with customFontSize := o, customColor := oc }
      = renderTextBlockPptx plainBlock) :=
  C1_overrides_editor_only plainBlock 99 (by norm_num) "#ff0000" (by decide)

/-! ## Claim C7: raster text layout -/

theorem splitCharGo_ne_nil (c : Char) (acc : List Char) (l : List Char) :
    splitCharGo c acc l ≠ [] := by
  induction l generalizing acc with
  | nil => simp [splitCharGo]
  | cons x xs ih =>
    by_cases hx : x = c
    · simp [splitCharGo, hx]
    · simp only [splitCharGo, if_neg hx]
      exact ih (x :: acc)

theorem splitLines_length_pos (s : String) : 0 < (splitLines s).length := by
  rw [splitLines, List.length_map]
  exact List.length_pos.mpr (splitCharGo_ne_nil (Char.ofNat 10) [] s.data)

/-- C7 counterexample: the raster pipeline does not draw the text blocks
of every slide: a slide without a clean background keeps its text blocks
undrawn; the render output of slideNoClean holds only the background
fill and image, no fillText command. -/
theorem C7_counterexample :
    slideNoClean.cleanPath = none ∧
    slideNoClean.textBlocks = some [plainBlock] ∧
    (cmdsOf (renderSlideToCanvas envA slideNoClean)).length = 2 ∧
    (cmdsOf (renderSlideToCanvas envA slideNoClean)).filter DrawCmd.isFillText
      = [] := by
  exact ⟨rfl, rfl, rfl, rfl⟩

/-- C7 amended: when the slide has a truthy clean background and a
nonempty block list, the raster pipeline draws every text block in
insertion order after the background; per block, one fillText per
newline-separated line, every line at x equal to xPercent percent of the
canvas width with the size-class font, consecutive lines spaced by
fontSize times 1.3, and the first and last line placed symmetrically
around yPercent percent of the canvas height. Slides without a clean
background draw no text at all. -/
theorem C7_raster_text_layout (env : String → Option (ℚ × ℚ))
    (slide : GeneratedSlide) (tbs : List TextBlock) (wh : ℚ × ℚ)
    (htb : slide.textBlocks = some tbs) (hne : tbs ≠ [])
    (hcp : truthyOpt slide.cleanPath = true)
    (henv : env (bestImageUrl slide) = some wh) :
    renderSlideToCanvas env slide =
      .ok (backgroundCmds (bestImageUrl slide) wh ++
        (tbs.map renderTextBlockPx).flatten) ∧
    (∀ b ∈ tbs,
      (renderTextBlockPx b).length = (splitLines b.content).length ∧
      (∀ cmd ∈ renderTextBlockPx b,
        cmd.isFillText = true ∧
        cmd.posX = b.x_percent / 100 * SLIDE_WIDTH ∧
        cmd.textFontSize = getFontSizeInPx b.size) ∧
      (∀ i, i + 1 < (renderTextBlockPx b).length →
        ((renderTextBlockPx b).getD (i + 1) dummyCmd).posY
          - ((renderTextBlockPx b).getD i dummyCmd).posY
          = getFontSizeInPx b.size * 1.3) ∧
      ((renderTextBlockPx b).getD 0 dummyCmd).posY +
        ((renderTextBlockPx b).getD ((renderTextBlockPx b).length - 1)
          dummyCmd).posY
        = 2 * (b.y_percent / 100 * SLIDE_HEIGHT)) := by
  have hL : ∀ b : TextBlock,
      (renderTextBlockPx b).length = (splitLines b.content).length := by
    intro b
    simp [renderTextBlockPx]
  constructor
  · have h1 : truthyList slide.textBlocks = true := by
      rw [htb]
      simp [truthyList, List.isEmpty_eq_false.mpr hne]
    have hcond : (truthyOpt slide.cleanPath && truthyList slide.textBlocks)
        = true := by
      rw [hcp, h1]
      rfl
    simp [renderSlideToCanvas, henv, hcond, htb]
    intro h
    exfalso
    rw [htb] at h1
    rw [h hcp] at h1
    exact Bool.false_ne_true h1
  · intro b _
    refine ⟨hL b, ?_, ?_, ?_⟩
    · intro cmd hcmd
      simp only [renderTextBlockPx, List.mem_map] at hcmd
      obtain ⟨p, _, rfl⟩ := hcmd
      exact ⟨rfl, rfl, rfl⟩
    · intro i hi
      have hi1 : i + 1 < (renderTextBlockPx b).length := hi
      have hi0 : i < (renderTextBlockPx b).length := by omega
      rw [List.getD_eq_getElem _ _ hi1, List.getD_eq_getElem _ _ hi0]
      simp only [renderTextBlockPx, List.getElem_map, List.getElem_enum,
        DrawCmd.posY]
      push_cast
      ring
    · have hpos : 0 < (splitLines b.content).length := splitLines_length_pos b.content
      have h0 : 0 < (renderTextBlockPx b).length := by
        rw [hL b]
        exact hpos
      have hlast : (renderTextBlockPx b).length - 1 < (renderTextBlockPx b).length := by
        omega
      rw [List.getD_eq_getElem _ _ h0, List.getD_eq_getElem _ _ hlast]
      simp only [renderTextBlockPx, List.getElem_map, List.getElem_enum,
        DrawCmd.posY, List.length_map, List.enum_length]
      have hcast : (((splitLines b.content).length - 1 : ℕ) : ℚ)
          = ((splitLines b.content).length : ℚ) - 1 := by
        push_cast [Nat.cast_sub hpos]
        ring
      push_cast [hcast]
      ring

/-- C7 witness: the amended layout statement instantiated at slideLarge
rendered through envA. -/
theorem C7_witness :
    renderSlideToCanvas envA slideLarge =
      .ok (backgroundCmds (bestImageUrl slideLarge) (1920, 1080) ++
        ([largeBlock].map renderTextBlockPx).flatten) ∧
    (∀ b ∈ [largeBlock],
      (renderTextBlockPx b).length = (splitLines b.content).length ∧
      (∀ cmd ∈ renderTextBlockPx b,
        cmd.isFillText = true ∧
        cmd.posX = b.x_percent / 100 * SLIDE_WIDTH ∧
        cmd.textFontSize = getFontSizeInPx b.size) ∧
      (∀ i, i + 1 < (renderTextBlockPx b).length →
        ((renderTextBlockPx b).getD (i + 1) dummyCmd).posY
          - ((renderTextBlockPx b).getD i dummyCmd).posY
          = getFontSizeInPx b.size * 1.3) ∧
      ((renderTextBlockPx b).getD 0 dummyCmd).posY +
        ((renderTextBlockPx b).getD ((renderTextBlockPx b).length - 1)
          dummyCmd).posY
        = 2 * (b.y_percent / 100 * SLIDE_HEIGHT)) :=
  C7_raster_text_layout envA slideLarge [largeBlock] (1920, 1080)
    rfl (by simp) (by decide) rfl

/-! ## Claim C9: drag and resize clamping -/

theorem textBlockAt_update (st : EditorState) (si bi : Nat) (x y : ℚ)
    (hbi : bi < ((st.localSlides.getD si emptySlide).textBlocks.getD []).length) :
    textBlockAt (updateTextBlockPosition st si bi x y) si bi =
      { textBlockAt st si bi with x_percent := x, y_percent := y } := by
  have hsi : si < st.localSlides.length := by
    by_contra h
    rw [List.getD_eq_default _ _ (by omega)] at hbi
    simp [emptySlide] at hbi
  unfold textBlockAt updateTextBlockPosition
  simp only
  rw [modifyAt_getD, if_pos ⟨rfl, hsi⟩]
  simp only [Option.getD_some]
  rw [modifyAt_getD, if_pos ⟨rfl, hbi⟩]

theorem imageBlockAt_updatePos (st : EditorState) (ii : Nat) (x y : ℚ)
    (hii : ii < ((st.localSlides.getD st.currentSlideIndex
      emptySlide).imageBlocks.getD []).length) :
    imageBlockAt (updateImagePosition st ii x y) ii =
      { imageBlockAt st ii with x_percent := x, y_percent := y } := by
  have hsi : st.currentSlideIndex < st.localSlides.length := by
    by_contra h
    rw [List.getD_eq_default _ _ (by omega)] at hii
    simp [emptySlide] at hii
  unfold imageBlockAt updateImagePosition
  simp only
  rw [modifyAt_getD, if_pos ⟨rfl, hsi⟩]
  simp only [Option.getD_some]
  rw [modifyAt_getD, if_pos ⟨rfl, hii⟩]

theorem imageBlockAt_updateSize (st : EditorState) (ii : Nat) (w : ℚ)
    (hii : ii < ((st.localSlides.getD st.currentSlideIndex
      emptySlide).imageBlocks.getD []).length) :
    imageBlockAt (updateImageSize st ii w) ii =
      { imageBlockAt st ii with width_percent := w } := by
  have hsi : st.currentSlideIndex < st.localSlides.length := by
    by_contra h
    rw [List.getD_eq_default _ _ (by omega)] at hii
    simp [emptySlide] at hii
  unfold imageBlockAt updateImageSize
  simp only
  rw [modifyAt_getD, if_pos ⟨rfl, hsi⟩]
  simp only [Option.getD_some]
  rw [modifyAt_getD, if_pos ⟨rfl, hii⟩]

/-- C9: every pointer-move of a text or image drag stores a center clamped
into 0 to 100 on both axes, and every resize move stores a width clamped
into 5 to 100, for arbitrary drag starts, container sizes and pointer
positions. -/
theorem C9_clamp (st : EditorState) :
    (∀ (ds : DragStart) (rW rH cx cy : ℚ) (si bi : Nat),
      bi < ((st.localSlides.getD si emptySlide).textBlocks.getD []).length →
        0 ≤ (textBlockAt (handleTextMouseMove st true ds rW rH cx cy si bi)
          si bi).x_percent ∧
        (textBlockAt (handleTextMouseMove st true ds rW rH cx cy si bi)
          si bi).x_percent ≤ 100 ∧
        0 ≤ (textBlockAt (handleTextMouseMove st true ds rW rH cx cy si bi)
          si bi).y_percent ∧
        (textBlockAt (handleTextMouseMove st true ds rW rH cx cy si bi)
          si bi).y_percent ≤ 100) ∧
    (∀ (ds : ImageDragStart) (rs : ResizeStart) (rW rH cx cy : ℚ) (ii : Nat),
      ii < ((st.localSlides.getD st.currentSlideIndex
          emptySlide).imageBlocks.getD []).length →
        0 ≤ (imageBlockAt (handleImageMouseMove st true false ds rs rW rH cx cy ii)
          ii).x_percent ∧
        (imageBlockAt (handleImageMouseMove st true false ds rs rW rH cx cy ii)
          ii).x_percent ≤ 100 ∧
        0 ≤ (imageBlockAt (handleImageMouseMove st true false ds rs rW rH cx cy ii)
          ii).y_percent ∧
        (imageBlockAt (handleImageMouseMove st true false ds rs rW rH cx cy ii)
          ii).y_percent ≤ 100) ∧
    (∀ (ds : ImageDragStart) (rs : ResizeStart) (rW rH cx cy : ℚ) (ii : Nat),
      ii < ((st.localSlides.getD st.currentSlideIndex
          emptySlide).imageBlocks.getD []).length →
        5 ≤ (imageBlockAt (handleImageMouseMove st false true ds rs rW rH cx cy ii)
          ii).width_percent ∧
        (imageBlockAt (handleImageMouseMove st false true ds rs rW rH cx cy ii)
          ii).width_percent ≤ 100) := by
  refine ⟨?_, ?_, ?_⟩
  · intro ds rW rH cx cy si bi hbi
    have hm : handleTextMouseMove st true ds rW rH cx cy si bi =
        updateTextBlockPosition st si bi
          (max 0 (min 100 (ds.blockX + (cx - ds.x) / rW * 100)))
          (max 0 (min 100 (ds.blockY + (cy - ds.y) / rH * 100))) := rfl
    rw [hm, textBlockAt_update st si bi _ _ hbi]
    refine ⟨le_max_left _ _, max_le (by norm_num) (min_le_left _ _),
      le_max_left _ _, max_le (by norm_num) (min_le_left _ _)⟩
  · intro ds rs rW rH cx cy ii hii
    have hm : handleImageMouseMove st true false ds rs rW rH cx cy ii =
        updateImagePosition st ii
          (max 0 (min 100 (ds.imgX + (cx - ds.x) / rW * 100)))
          (max 0 (min 100 (ds.imgY + (cy - ds.y) / rH * 100))) := rfl
    rw [hm, imageBlockAt_updatePos st ii _ _ hii]
    refine ⟨le_max_left _ _, max_le (by norm_num) (min_le_left _ _),
      le_max_left _ _, max_le (by norm_num) (min_le_left _ _)⟩
  · intro ds rs rW rH cx cy ii hii
    have hm : handleImageMouseMove st false true ds rs rW rH cx cy ii =
        updateImageSize st ii
          (max 5 (min 100 (rs.width + (cx - rs.x) / rW * 100))) := rfl
    rw [hm, imageBlockAt_updateSize st ii _ hii]
    exact ⟨le_max_left _ _, max_le (by norm_num) (min_le_left _ _)⟩

/-- C9 witness: the clamp bounds instantiated at a concrete one-slide
state, a pointer that travelled one million pixels past the container on
both axes, and a shrinking resize of the same magnitude. -/
theorem C9_witness :
    (0 ≤ (textBlockAt (handleTextMouseMove stClamp true
        { x := 0, y := 0, blockX := 50, blockY := 50 } 100 100 1000000 1000000 0 0)
        0 0).x_percent ∧
      (textBlockAt (handleTextMouseMove stClamp true
        { x := 0, y := 0, blockX := 50, blockY := 50 } 100 100 1000000 1000000 0 0)
        0 0).x_percent ≤ 100 ∧
      0 ≤ (textBlockAt (handleTextMouseMove stClamp true
        { x := 0, y := 0, blockX := 50, blockY := 50 } 100 100 1000000 1000000 0 0)
        0 0).y_percent ∧
      (textBlockAt (handleTextMouseMove stClamp true
        { x := 0, y := 0, blockX := 50, blockY := 50 } 100 100 1000000 1000000 0 0)
        0 0).y_percent ≤ 100) ∧
    (5 ≤ (imageBlockAt (handleImageMouseMove stClamp false true
        { x := 0, y := 0, imgX := 50, imgY := 50 } { x := 0, width := 30 }
        100 100 (-1000000) 0 0) 0).width_percent ∧
      (imageBlockAt (handleImageMouseMove stClamp false true
        { x := 0, y := 0, imgX := 50, imgY := 50 } { x := 0, width := 30 }
        100 100 (-1000000) 0 0) 0).width_percent ≤ 100) :=
  ⟨(C9_clamp stClamp).1 { x := 0, y := 0, blockX := 50, blockY := 50 }
      100 100 1000000 1000000 0 0 (by decide),
   (C9_clamp stClamp).2.2 { x := 0, y := 0, imgX := 50, imgY := 50 }
      { x := 0, width := 30 } 100 100 (-1000000) 0 0 (by decide)⟩

/-! ## Claim C5: bounded history ring and undo depth -/

/-- C5: after sixty sequential commits from a fresh editor state, the
history holds exactly the 50 most recent snapshots (the initial state and
the ten oldest edits are evicted), the cursor sits at 49, the k-th undo
for k up to 49 lands on the k-th most recent retained snapshot, every
state reachable by repeated undo is one of the 50 retained snapshots, and
one more undo at the earliest retained snapshot is a complete no-op. -/
theorem C5_history_ring (d0 : Deck) (ds : List Deck) (h : ds.length = 60) :
    (commitAll (initEditor d0) ds).history = (d0 :: ds).drop 11 ∧
    (commitAll (initEditor d0) ds).historyIndex = 49 ∧
    (∀ k, k ≤ 49 →
      (undoN k (commitAll (initEditor d0) ds)).historyIndex = 49 - k ∧
      (undoN k (commitAll (initEditor d0) ds)).localSlides
        = (commitAll (initEditor d0) ds).history.getD (49 - k) []) ∧
    (∀ k, (undoN k (commitAll (initEditor d0) ds)).localSlides
        ∈ (commitAll (initEditor d0) ds).history) ∧
    undo (undoN 49 (commitAll (initEditor d0) ds))
      = undoN 49 (commitAll (initEditor d0) ds) := by
  obtain ⟨hinv, hhist⟩ := commitAll_spec ds (initEditor d0) (historyInv_init d0)
  set stF := commitAll (initEditor d0) ds with hstF
  have hh : stF.history = (d0 :: ds).drop 11 := by
    rw [hhist]
    show sliceLast 50 ([d0] ++ ds) = (d0 :: ds).drop 11
    rw [show ([d0] ++ ds : List Deck) = d0 :: ds from rfl]
    unfold sliceLast
    have hd : (d0 :: ds).length - 50 = 11 := by
      simp [h]
    rw [hd]
  have hlen : stF.history.length = 50 := by
    rw [hh, List.length_drop]
    simp [h]
  have hidx : stF.historyIndex = 49 := by
    have h1 := hinv.1
    omega
  have hloc : stF.localSlides = stF.history.getD stF.historyIndex [] := hinv.2.2
  refine ⟨hh, hidx, ?_, ?_, ?_⟩
  · intro k hk
    have := undoN_spec stF hloc k (by omega)
    rw [hidx] at this
    exact this
  · intro k
    exact undoN_localSlides_mem stF (by omega) hloc k
  · have h49 : (undoN 49 stF).historyIndex = 0 := by
      have := (undoN_spec stF hloc 49 (by omega)).1
      rw [hidx] at this
      simpa using this
    exact undo_fix _ h49

/-- C5 witness: the history-depth statement instantiated at a concrete
one-slide initial deck and sixty concrete distinct edits. -/
theorem C5_witness :
    decks60.length = 60 ∧
    ((commitAll (initEditor deck0) decks60).history
        = (deck0 :: decks60).drop 11 ∧
      (commitAll (initEditor deck0) decks60).historyIndex = 49 ∧
      (∀ k, k ≤ 49 →
        (undoN k (commitAll (initEditor deck0) decks60)).historyIndex = 49 - k ∧
        (undoN k (commitAll (initEditor deck0) decks60)).localSlides
          = (commitAll (initEditor deck0) decks60).history.getD (49 - k) []) ∧
      (∀ k, (undoN k (commitAll (initEditor deck0) decks60)).localSlides
          ∈ (commitAll (initEditor deck0) decks60).history) ∧
      undo (undoN 49 (commitAll (initEditor deck0) decks60))
        = undoN 49 (commitAll (initEditor deck0) decks60)) :=
  ⟨by decide, C5_history_ring deck0 decks60 (by decide)⟩

/-! ## Claim C3: batch style updates -/

/-- C3 counterexample: with three blocks selected, a font-size change and
a color change update the selected blocks but push no new history entry at
all; the number of new entries is 0, not the 1 the claim demands. -/
theorem C3_counterexample :
    stThreeSelected.selectedBlockIndices.length = 3 ∧
    (batchUpdateFontSize stThreeSelected 20).history = stThreeSelected.history ∧
    (batchUpdateColor stThreeSelected "#00ff00").history = stThreeSelected.history ∧
    (textBlockAt (batchUpdateFontSize stThreeSelected 20) 0 0).customFontSize
      = some 20 ∧
    (textBlockAt (batchUpdateFontSize stThreeSelected 20) 0 2).customFontSize
      = some 20 ∧
    (textBlockAt (batchUpdateFontSize stThreeSelected 20) 0 3).customFontSize
      = none ∧
    (batchUpdateFontSize stThreeSelected 20).history.length
      - stThreeSelected.history.length = 0 ∧
    ¬ ((batchUpdateFontSize stThreeSelected 20).history.length
      - stThreeSelected.history.length = 1) :=
  ⟨rfl, rfl, rfl, rfl, rfl, rfl, rfl, by decide⟩

/-- C3 amended: a batch font-size or color change sets the override
identically on every selected block of the current slide, leaves
unselected blocks and all other slides untouched, and registers zero new
history entries: the live slides are updated without any history commit. -/
theorem C3_batch_updates (st : EditorState) (fs : ℚ) (c : String) (i : Nat)
    (hi : i < ((st.localSlides.getD st.currentSlideIndex
      emptySlide).textBlocks.getD []).length) :
    (batchUpdateFontSize st fs).history = st.history ∧
    (batchUpdateColor st c).history = st.history ∧
    textBlockAt (batchUpdateFontSize st fs) st.currentSlideIndex i =
      (if i ∈ st.selectedBlockIndices then
        { textBlockAt st st.currentSlideIndex i with customFontSize := some fs }
      else textBlockAt st st.currentSlideIndex i) ∧
    textBlockAt (batchUpdateColor st c) st.currentSlideIndex i =
      (if i ∈ st.selectedBlockIndices then
        { textBlockAt st st.currentSlideIndex i with customColor := some c }
      else textBlockAt st st.currentSlideIndex i) ∧
    (∀ j, j ≠ st.currentSlideIndex →
      (batchUpdateFontSize st fs).localSlides.getD j emptySlide
        = st.localSlides.getD j emptySlide ∧
      (batchUpdateColor st c).localSlides.getD j emptySlide
        = st.localSlides.getD j emptySlide) := by
  have hsi : st.currentSlideIndex < st.localSlides.length := by
    by_contra h
    rw [List.getD_eq_default _ _ (by omega)] at hi
    simp [emptySlide] at hi
  refine ⟨rfl, rfl, ?_, ?_, ?_⟩
  · unfold textBlockAt batchUpdateFontSize
    simp only
    rw [modifyAt_getD, if_pos ⟨rfl, hsi⟩]
    simp only [Option.getD_some]
    rw [foldl_modifyAt_getD (fun b => { b with customFontSize := some fs })
      (fun x => rfl) st.selectedBlockIndices _ i dummyTextBlock hi]
  · unfold textBlockAt batchUpdateColor
    simp only
    rw [modifyAt_getD, if_pos ⟨rfl, hsi⟩]
    simp only [Option.getD_some]
    rw [foldl_modifyAt_getD (fun b => { b with customColor := some c })
      (fun x => rfl) st.selectedBlockIndices _ i dummyTextBlock hi]
  · intro j hj
    constructor
    · unfold batchUpdateFontSize
      simp only
      rw [modifyAt_getD, if_neg (by omega)]
    · unfold batchUpdateColor
      simp only
      rw [modifyAt_getD, if_neg (by omega)]

/-- C3 witness: the amended batch-update statement instantiated at the
three-of-four-selected state, font size 20 and a green color, inspected at
block 0. -/
theorem C3_witness :
    (batchUpdateFontSize stThreeSelected 20).history = stThreeSelected.history ∧
    (batchUpdateColor stThreeSelected "#00ff00").history = stThreeSelected.history ∧
    textBlockAt (batchUpdateFontSize stThreeSelected 20)
        stThreeSelected.currentSlideIndex 0 =
      (if 0 ∈ stThreeSelected.selectedBlockIndices then
        { textBlockAt stThreeSelected stThreeSelected.currentSlideIndex 0 with
            customFontSize := some 20 }
      else textBlockAt stThreeSelected stThreeSelected.currentSlideIndex 0) ∧
    textBlockAt (batchUpdateColor stThreeSelected "#00ff00")
        stThreeSelected.currentSlideIndex 0 =
      (if 0 ∈ stThreeSelected.selectedBlockIndices then
        { textBlockAt stThreeSelected stThreeSelected.currentSlideIndex 0 with
            customColor := some "#00ff00" }
      else textBlockAt stThreeSelected stThreeSelected.currentSlideIndex 0) ∧
    (∀ j, j ≠ stThreeSelected.currentSlideIndex →
      (batchUpdateFontSize stThreeSelected 20).localSlides.getD j emptySlide
        = stThreeSelected.localSlides.getD j emptySlide ∧
      (batchUpdateColor stThreeSelected "#00ff00").localSlides.getD j emptySlide
        = stThreeSelected.localSlides.getD j emptySlide) :=
  C3_batch_updates stThreeSelected 20 "#00ff00" 0 (by decide)

/-! ## Claim C2: pointer-up and the add-drag-delete scenario -/

theorem bangContains_singleton (n : Nat) :
    (fun idx => !([n].contains idx)) = (fun idx => idx != n) := by
  funext idx
  by_cases h : idx = n
  · subst h
    simp
  · simp [List.contains, h, Ne.symm h]

/-- C2 counterexample: in the add, drag from (50,50) to (10,10), delete
scenario the pointer-up step commits nothing, so the history receives 2
new entries (add and delete), not the 3 the claim demands; the final state
does equal the pre-add state. -/
theorem C2_counterexample :
    (let st1 := addNewTextBlock (initEditor [slidePre])
     let st2 := handleBlockSelect st1 0 false
     let st3 := handleTextMouseMove st2 true
       { x := 500, y := 500, blockX := 50, blockY := 50 } 1000 1000 100 100 0 0
     let st4 := handleTextMouseUp st3
     let st5 := deleteSelectedBlocks st4
     (textBlockAt st3 0 0).x_percent = 10 ∧
     (textBlockAt st3 0 0).y_percent = 10 ∧
     st4 = st3 ∧
     st4.history = st3.history ∧
     st5.history.length - (initEditor [slidePre]).history.length = 2 ∧
     ¬ (st5.history.length - (initEditor [slidePre]).history.length = 3) ∧
     st5.localSlides = [slidePre]) := by
  refine ⟨?_, ?_, rfl, rfl, rfl, by decide, rfl⟩
  · show max 0 (min 100 ((50 : ℚ) + ((100 : ℚ) - 500) / 1000 * 100)) = 10
    norm_num
  · show max 0 (min 100 ((50 : ℚ) + ((100 : ℚ) - 500) / 1000 * 100)) = 10
    norm_num

/-- C2 amended: pointer-up performs no history commit at all (it only ends
the transient drag), and pointer-moves during a drag change the live
slides without touching the history; consequently the add, drag, delete
scenario yields exactly 2 new history commits (3 entries counting the
initial snapshot) and a final live deck equal to the pre-add deck. The
committed drag position is quantified as the pair x, y that
handleTextMouseMove passes to updateTextBlockPosition. -/
theorem C2_pointer_up_no_commit (num : Nat) (path : String)
    (enl cp : Option String) (tbs : List TextBlock)
    (ib : Option (List ImageBlock)) (rest : Deck) (x y : ℚ) :
    (∀ st : EditorState, handleTextMouseUp st = st) ∧
    (∀ (st : EditorState) (isDragging : Bool) (ds : DragStart)
      (rW rH cx cy : ℚ) (si bi : Nat),
      (handleTextMouseMove st isDragging ds rW rH cx cy si bi).history
        = st.history) ∧
    (let pre : Deck := (⟨num, path, enl, cp, some tbs, ib⟩ : GeneratedSlide) :: rest
     let st1 := addNewTextBlock (initEditor pre)
     let st2 := handleBlockSelect st1 tbs.length false
     let st3 := updateTextBlockPosition st2 0 tbs.length x y
     let st5 := deleteSelectedBlocks (handleTextMouseUp st3)
     st5.history.length = 3 ∧ st5.localSlides = pre) := by
  refine ⟨fun st => rfl, ?_, ?_, ?_⟩
  · intro st isDragging ds rW rH cx cy si bi
    unfold handleTextMouseMove
    split
    · rfl
    · rfl
  · rfl
  · show (⟨num, path, enl, cp,
        some (filterIdx (fun idx => !([tbs.length].contains idx))
          (modifyAt tbs.length
            (fun b => { b with x_percent := x, y_percent := y })
            (tbs ++ [defaultNewTextBlock]))), ib⟩ : GeneratedSlide) :: rest
      = (⟨num, path, enl, cp, some tbs, ib⟩ : GeneratedSlide) :: rest
    rw [modifyAt_append_length, bangContains_singleton, filterIdx_last]

/-- C2 witness: the amended scenario instantiated at the concrete pre-add
slide of the counterexample and the drag landing position (10,10). -/
theorem C2_witness :
    (∀ st : EditorState, handleTextMouseUp st = st) ∧
    (∀ (st : EditorState) (isDragging : Bool) (ds : DragStart)
      (rW rH cx cy : ℚ) (si bi : Nat),
      (handleTextMouseMove st isDragging ds rW rH cx cy si bi).history
        = st.history) ∧
    (let pre : Deck :=
       (⟨1, "a.png", none, some "a_clean.png", some [], none⟩ : GeneratedSlide) :: []
     let st1 := addNewTextBlock (initEditor pre)
     let st2 := handleBlockSelect st1 (List.length ([] : List TextBlock)) false
     let st3 := updateTextBlockPosition st2 0 (List.length ([] : List TextBlock)) 10 10
     let st5 := deleteSelectedBlocks (handleTextMouseUp st3)
     st5.history.length = 3 ∧ st5.localSlides = pre) :=
  C2_pointer_up_no_commit 1 "a.png" none (some "a_clean.png") [] none [] 10 10

/-! ## Claim C4: failure behavior of multi-slide exports -/

theorem exportSlidesAsPDF_error_iff (env : String → Option (ℚ × ℚ)) :
    ∀ slides : List GeneratedSlide,
    (∃ e, exportSlidesAsPDF env slides = .error e) ↔
      ∃ s ∈ slides, env (bestImageUrl s) = none := by
  intro slides
  induction slides with
  | nil => simp [exportSlidesAsPDF]
  | cons s rest ih =>
    cases h : env (bestImageUrl s) with
    | none =>
      have hp : pdfPage env s = .error "image fetch failed" := by
        simp [pdfPage, h]
      constructor
      · intro _
        exact ⟨s, List.mem_cons_self s rest, h⟩
      · intro _
        refine ⟨"image fetch failed", ?_⟩
        simp [exportSlidesAsPDF, hp, Bind.bind, Except.bind]
    | some wh =>
      have hp : pdfPage env s = .ok
          { image := bestImageUrl s,
            texts := if truthyOpt s.cleanPath && truthyList s.textBlocks then
                ((s.textBlocks.getD []).map renderTextBlockPdf).flatten
              else [] } := by
        simp [pdfPage, h]
      cases hr : exportSlidesAsPDF env rest with
      | ok pages =>
        have hok : exportSlidesAsPDF env (s :: rest) = .ok
            ({ image := bestImageUrl s,
               texts := if truthyOpt s.cleanPath && truthyList s.textBlocks then
                   ((s.textBlocks.getD []).map renderTextBlockPdf).flatten
                 else [] } :: pages) := by
          simp [exportSlidesAsPDF, hp, hr, Bind.bind, Except.bind]
        constructor
        · intro ⟨e, he⟩
          rw [hok] at he
          exact absurd he (by simp)
        · intro ⟨t, ht, hn⟩
          rcases List.mem_cons.mp ht with h1 | h1
          · subst h1
            rw [h] at hn
            exact absurd hn (by simp)
          · obtain ⟨e, he⟩ := ih.mpr ⟨t, h1, hn⟩
            rw [hr] at he
            exact absurd he (by simp)
      | error e =>
        have herr : exportSlidesAsPDF env (s :: rest) = .error e := by
          simp [exportSlidesAsPDF, hp, hr, Bind.bind, Except.bind]
        constructor
        · intro _
          obtain ⟨t, ht, hn⟩ := ih.mp ⟨e, hr⟩
          exact ⟨t, List.mem_cons_of_mem s ht, hn⟩
        · intro _
          exact ⟨e, herr⟩

theorem exportSlidesAsPPTX_error_iff (env : String → Option (ℚ × ℚ)) :
    ∀ slides : List GeneratedSlide,
    (∃ e, exportSlidesAsPPTX env slides = .error e) ↔
      ∃ s ∈ slides, env (bestImageUrl s) = none := by
  intro slides
  induction slides with
  | nil => simp [exportSlidesAsPPTX]
  | cons s rest ih =>
    cases h : env (bestImageUrl s) with
    | none =>
      have hp : pptxSlide env s = .error "image fetch failed" := by
        simp [pptxSlide, h]
      constructor
      · intro _
        exact ⟨s, List.mem_cons_self s rest, h⟩
      · intro _
        refine ⟨"image fetch failed", ?_⟩
        simp [exportSlidesAsPPTX, hp, Bind.bind, Except.bind]
    | some wh =>
      have hp : pptxSlide env s = .ok
          { image := bestImageUrl s,
            texts := if truthyOpt s.cleanPath && truthyList s.textBlocks then
                (s.textBlocks.getD []).map renderTextBlockPptx
              else [] } := by
        simp [pptxSlide, h]
      cases hr : exportSlidesAsPPTX env rest with
      | ok ss =>
        have hok : exportSlidesAsPPTX env (s :: rest) = .ok
            ({ image := bestImageUrl s,
               texts := if truthyOpt s.cleanPath && truthyList s.textBlocks then
                   (s.textBlocks.getD []).map renderTextBlockPptx
                 else [] } :: ss) := by
          simp [exportSlidesAsPPTX, hp, hr, Bind.bind, Except.bind]
        constructor
        · intro ⟨e, he⟩
          rw [hok] at he
          exact absurd he (by simp)
        · intro ⟨t, ht, hn⟩
          rcases List.mem_cons.mp ht with h1 | h1
          · subst h1
            rw [h] at hn
            exact absurd hn (by simp)
          · obtain ⟨e, he⟩ := ih.mpr ⟨t, h1, hn⟩
            rw [hr] at he
            exact absurd he (by simp)
      | error e =>
        have herr : exportSlidesAsPPTX env (s :: rest) = .error e := by
          simp [exportSlidesAsPPTX, hp, hr, Bind.bind, Except.bind]
        constructor
        · intro _
          obtain ⟨t, ht, hn⟩ := ih.mp ⟨e, hr⟩
          exact ⟨t, List.mem_cons_of_mem s ht, hn⟩
        · intro _
          exact ⟨e, herr⟩

theorem downloadAllSlidesAsPNGRun_spec (env : String → Option (ℚ × ℚ)) :
    ∀ slides : List GeneratedSlide,
    (downloadAllSlidesAsPNGRun env slides).1 =
      (slides.takeWhile (fun s => (env (bestImageUrl s)).isSome)).map
        (fun s => ("slide_" ++ toString s.number ++ ".png",
          cmdsOf (renderSlideToCanvas env s))) ∧
    ((downloadAllSlidesAsPNGRun env slides).2.isSome ↔
      ∃ s ∈ slides, env (bestImageUrl s) = none) := by
  intro slides
  induction slides with
  | nil => simp [downloadAllSlidesAsPNGRun]
  | cons s rest ih =>
    cases h : env (bestImageUrl s) with
    | none =>
      have hr : renderSlideToCanvas env s = .error "image load failed" := by
        simp [renderSlideToCanvas, h]
      constructor
      · simp [downloadAllSlidesAsPNGRun, exportSlideAsPNG, hr,
          List.takeWhile_cons, h]
      · simp [downloadAllSlidesAsPNGRun, exportSlideAsPNG, hr]
        exact Or.inl h
    | some wh =>
      have hok : renderSlideToCanvas env s =
          .ok (cmdsOf (renderSlideToCanvas env s)) := by
        simp [renderSlideToCanvas, h, cmdsOf]
      constructor
      · rw [show downloadAllSlidesAsPNGRun env (s :: rest) =
            (match exportSlideAsPNG env s with
             | .error e => ([], some e)
             | .ok cmds =>
               (("slide_" ++ toString s.number ++ ".png", cmds)
                  :: (downloadAllSlidesAsPNGRun env rest).1,
                 (downloadAllSlidesAsPNGRun env rest).2)) from rfl]
        rw [show exportSlideAsPNG env s = renderSlideToCanvas env s from rfl, hok]
        simp only [List.takeWhile_cons, h, Option.isSome_some, if_pos]
        rw [List.map_cons, ih.1]
      · rw [show (downloadAllSlidesAsPNGRun env (s :: rest)).2 =
            (match exportSlideAsPNG env s with
             | .error e => (([] : List (String × List DrawCmd)), some e)
             | .ok cmds =>
               (("slide_" ++ toString s.number ++ ".png", cmds)
                  :: (downloadAllSlidesAsPNGRun env rest).1,
                 (downloadAllSlidesAsPNGRun env rest).2)).2 from rfl]
        rw [show exportSlideAsPNG env s = renderSlideToCanvas env s from rfl, hok]
        simp only
        rw [ih.2]
        constructor
        · intro ⟨t, ht, hn⟩
          exact ⟨t, List.mem_cons_of_mem s ht, hn⟩
        · intro ⟨t, ht, hn⟩
          rcases List.mem_cons.mp ht with h1 | h1
          · subst h1
            rw [h] at hn
            exact absurd hn (by simp)
          · exact ⟨t, h1, hn⟩

/-- C4 counterexample: on the three-slide deck whose second background URL
is unreachable, the PNG export of all slides delivers the file of slide 1
before aborting; one alert is shown, but a partial set of per-slide output
files has already reached the user, contradicting the claim that no
output produced before the failure is delivered. -/
theorem C4_counterexample :
    envA "s2.png" = none ∧
    (downloadAllSlidesPNG envA slides3).1.map Prod.fst = ["slide_1.png"] ∧
    (downloadAllSlidesPNG envA slides3).1.length = 1 ∧
    (downloadAllSlidesPNG envA slides3).2 = some downloadFailedAlert :=
  ⟨rfl, rfl, rfl, rfl⟩

/-- C4 amended: the PDF and PPTX exports are atomic: when any slide of the
deck has an unreachable background URL, no file is delivered and exactly
the single alert is shown, and otherwise a single file is delivered with
no alert. The PNG export of all slides is not atomic: it delivers one
file per slide for the longest prefix of slides whose background loads,
so files produced before the failing slide remain delivered, and the
single alert is shown exactly when some slide fails. -/
theorem C4_export_failure (env : String → Option (ℚ × ℚ))
    (slides : List GeneratedSlide) :
    ((downloadAllSlidesPDF env slides).1 = none ↔
      ∃ s ∈ slides, env (bestImageUrl s) = none) ∧
    ((downloadAllSlidesPDF env slides).2 = some downloadFailedAlert ↔
      ∃ s ∈ slides, env (bestImageUrl s) = none) ∧
    ((downloadAllSlidesPPTX env slides).1 = none ↔
      ∃ s ∈ slides, env (bestImageUrl s) = none) ∧
    ((downloadAllSlidesPPTX env slides).2 = some downloadFailedAlert ↔
      ∃ s ∈ slides, env (bestImageUrl s) = none) ∧
    ((downloadAllSlidesPNG env slides).1 =
      (slides.takeWhile (fun s => (env (bestImageUrl s)).isSome)).map
        (fun s => ("slide_" ++ toString s.number ++ ".png",
          cmdsOf (renderSlideToCanvas env s)))) ∧
    ((downloadAllSlidesPNG env slides).2 = some downloadFailedAlert ↔
      ∃ s ∈ slides, env (bestImageUrl s) = none) := by
  have hpdf := exportSlidesAsPDF_error_iff env slides
  have hpptx := exportSlidesAsPPTX_error_iff env slides
  have hpng := downloadAllSlidesAsPNGRun_spec env slides
  refine ⟨?_, ?_, ?_, ?_, ?_, ?_⟩
  · cases h : exportSlidesAsPDF env slides with
    | ok pages =>
      simp only [downloadAllSlidesPDF, h]
      constructor
      · intro hc
        exact absurd hc (by simp)
      · intro hex
        obtain ⟨e, he⟩ := hpdf.mpr hex
        rw [h] at he
        exact absurd he (by simp)
    | error e =>
      simp only [downloadAllSlidesPDF, h]
      constructor
      · intro _
        exact hpdf.mp ⟨e, h⟩
      · intro _
        trivial
  · cases h : exportSlidesAsPDF env slides with
    | ok pages =>
      simp only [downloadAllSlidesPDF, h]
      constructor
      · intro hc
        exact absurd hc (by simp)
      · intro hex
        obtain ⟨e, he⟩ := hpdf.mpr hex
        rw [h] at he
        exact absurd he (by simp)
    | error e =>
      simp only [downloadAllSlidesPDF, h]
      constructor
      · intro _
        exact hpdf.mp ⟨e, h⟩
      · intro _
        trivial
  · cases h : exportSlidesAsPPTX env slides with
    | ok ss =>
      simp only [downloadAllSlidesPPTX, h]
      constructor
      · intro hc
        exact absurd hc (by simp)
      · intro hex
        obtain ⟨e, he⟩ := hpptx.mpr hex
        rw [h] at he
        exact absurd he (by simp)
    | error e =>
      simp only [downloadAllSlidesPPTX, h]
      constructor
      · intro _
        exact hpptx.mp ⟨e, h⟩
      · intro _
        trivial
  · cases h : exportSlidesAsPPTX env slides with
    | ok ss =>
      simp only [downloadAllSlidesPPTX, h]
      constructor
      · intro hc
        exact absurd hc (by simp)
      · intro hex
        obtain ⟨e, he⟩ := hpptx.mpr hex
        rw [h] at he
        exact absurd he (by simp)
    | error e =>
      simp only [downloadAllSlidesPPTX, h]
      constructor
      · intro _
        exact hpptx.mp ⟨e, h⟩
      · intro _
        trivial
  · show (downloadAllSlidesAsPNGRun env slides).1 = _
    exact hpng.1
  · show ((downloadAllSlidesAsPNGRun env slides).2.map
      (fun _ => downloadFailedAlert) = some downloadFailedAlert) ↔ _
    rw [← hpng.2]
    cases (downloadAllSlidesAsPNGRun env slides).2 with
    | none => simp
    | some e => simp
